import Mathlib

/-!
Verification of the gif-maker backend: a shallow embedding of the
asynchronous transcoding job engine (`flask_app.py`) and of the
image-to-GIF pipelines (`gif_maker.py`), together with theorems about
the job lifecycle, progress parsing, trim resolution, frame synthesis
and sizing rules.

Numeric conventions: Python floats are modelled as exact rationals (ℚ),
Python ints as ℤ.  `int(x)` is truncation toward zero (`ratTrunc`),
`x // y` on ints is floor division (`Int.fdiv`).
-/

/-- Truncation toward zero of a rational, the semantics of Python's `int(x)`
on a float. -/
def ratTrunc (q : ℚ) : ℤ := if 0 ≤ q then ⌊q⌋ else ⌈q⌉

/-! ## Job data model (flask_app.py) -/

/-- The `status` field of a job record: `queued`, `running`, `done`, `error`. -/
inductive Status where
  | queued
  | running
  | done
  | error
deriving DecidableEq, Repr

/-- The job record stored in `job_store` (the fields the lifecycle claims are
about; the route creates it with `status="queued"`, `progress=0.0`,
`eta=None`, `output=None`, `error=None`). -/
structure JobRecord where
  status : Status
  progress : ℚ
  eta : Option ℚ
  output : Option String
  error : Option String
deriving DecidableEq, Repr

/-- The record created at submission time by `/api/generate_async`. -/
def initialRecord : JobRecord :=
  { status := .queued, progress := 0, eta := none, output := none, error := none }

/-- Parsing of a `time=HH:MM:SS[.ms]` marker into seconds
(`float(hh)*3600 + float(mm)*60 + float(ss)` in `run_ffmpeg_with_progress`). -/
def hmsToSeconds (hh mm ss : ℚ) : ℚ := hh * 3600 + mm * 60 + ss

/-- One progress update of `run_ffmpeg_with_progress` for a recognized
`time=` line: `now` is the parsed media time, `elapsed` the wallclock time
since the runner started.  Mirrors
`pct = min(99.9, max(0.0, (now / max(1.0, duration_seconds)) * 100.0))` and
`eta = max(0.0, elapsed * (100.0 / pct - 1.0)) if pct > 0.5 else None`. -/
def progressUpdate (durationSeconds now elapsed : ℚ) (r : JobRecord) : JobRecord :=
  let pct := min (999 / 10) (max 0 (now / max 1 durationSeconds * 100))
  { r with
    progress := pct
    eta := if 1 / 2 < pct then some (max 0 (elapsed * (100 / pct - 1))) else none }

/-- The sequence of job-record states produced by the progress-parsing loop of
`run_ffmpeg_with_progress`, one entry per recognized `time=` line. -/
def runProgressTrace (durationSeconds : ℚ) (lines : List (ℚ × ℚ)) (r : JobRecord) :
    List JobRecord :=
  match lines with
  | [] => []
  | (now, elapsed) :: rest =>
    let r2 := progressUpdate durationSeconds now elapsed r
    r2 :: runProgressTrace durationSeconds rest r2

/-- The mutation at the start of `process_video_job`: mark running, reset
progress and eta. -/
def mkRunning (r : JobRecord) : JobRecord :=
  { r with status := .running, progress := 0, eta := none }

/-- The mutation of the top-level `except` handler of `process_video_job`. -/
def mkError (r : JobRecord) (msg : String) : JobRecord :=
  { r with status := .error, error := some msg }

/-- The success mutation at the end of `process_video_job`. -/
def mkDone (r : JobRecord) (out : String) : JobRecord :=
  { r with status := .done, progress := 100, eta := some 0, output := some out }

/-- The parameters of `process_video_job` after the numeric parsing at its
top (`stop` models `params['end']`, which resolves to `None` when absent). -/
structure JobParams where
  start : ℚ
  stop : Option ℚ
  fps : ℤ
  width : ℤ
  outFormat : String
  speed : ℚ
  loops : ℤ
  loopForever : Bool
  bounce : Bool
deriving DecidableEq, Repr

/-- Outcomes of the external collaborators during one background execution:
the ffprobe duration (none = probe raised), the temp directory, whether the
re-encode step succeeded, the recognized `time=` lines seen by the progress
parser, the exit code of the progress-monitored encode, whether palettegen
succeeded, and whether both gifsicle invocations of the bounce step
succeeded. -/
structure ExecEnv where
  probeResult : Option ℚ
  tmpdir : String
  recodeOk : Bool
  progressLines : List (ℚ × ℚ)
  mainRc : ℤ
  paletteOk : Bool
  bounceOk : Bool
deriving DecidableEq, Repr

/-- The probed duration `total_dur`, or the fixed 60-second fallback when the
probe fails. -/
def resolveTotalDur (env : ExecEnv) : ℚ := env.probeResult.getD 60

/-- Trim-window resolution of `process_video_job`: returns
`(end_time, seg_len)` with `end_time = total_dur` when no end was requested,
`min(end, total_dur)` otherwise, and `seg_len = max(0.1, end_time - start)`. -/
def resolveSegment (start : ℚ) (stop : Option ℚ) (totalDur : ℚ) : ℚ × ℚ :=
  let endTime := match stop with
    | none => totalDur
    | some e => min e totalDur
  (endTime, max (1 / 10) (endTime - start))

/-- The final artifact path, `final_out = os.path.join(tmpdir, "result.mp4|gif")`. -/
def finalOutPath (tmpdir : String) (outFormat : String) : String :=
  tmpdir ++ "/result." ++ (if outFormat = "mp4" then "mp4" else "gif")

/-- The progress-monitored encode step plus the terminal transition that
follows it: the progress updates, then either the success record (exit code
0) or the error record produced by `raise RuntimeError(f"ffmpeg exit {rc}")`
being caught at the top of `process_video_job`. -/
def encodePhase (durationSeconds : ℚ) (lines : List (ℚ × ℚ)) (rc : ℤ) (out : String)
    (r : JobRecord) : List JobRecord :=
  let tr := runProgressTrace durationSeconds lines r
  let rLast := tr.getLastD r
  tr ++ [if rc = 0 then mkDone rLast out
         else mkError rLast ("ffmpeg exit " ++ toString rc)]

/-- The full sequence of states the job record moves through during
`process_video_job`, starting from the `queued` record created at
submission: mark running, probe (advisory), resolve the segment, re-encode
(a failure is caught at the top level and recorded as `error`), then the
format branch with its progress-monitored encode, and finally the terminal
transition.  The bounce post-process never mutates the record. -/
def processVideoJob (p : JobParams) (env : ExecEnv) : List JobRecord :=
  let running := mkRunning initialRecord
  let segLen := (resolveSegment p.start p.stop (resolveTotalDur env)).2
  let out := finalOutPath env.tmpdir p.outFormat
  initialRecord :: running ::
    (if env.recodeOk = false then [mkError running "re-encode step failed"]
     else if p.outFormat = "mp4" then
       encodePhase segLen env.progressLines env.mainRc out running
     else if env.paletteOk = false then [mkError running "palettegen step failed"]
     else encodePhase segLen env.progressLines env.mainRc out running)

/-- Whether every required external step of the execution succeeded (the
re-encode, the progress-monitored encode, and — on the GIF path — the
palette generation).  The bounce step is not required. -/
def stepsSucceed (p : JobParams) (env : ExecEnv) : Bool :=
  env.recodeOk && (env.mainRc == 0) && ((p.outFormat == "mp4") || env.paletteOk)

/-- Whether the artifact at the output path is the bounce-spliced variant:
`os.replace(bounced, final_out)` runs only on the GIF path, after a
successful encode, when bounce was requested and both gifsicle invocations
succeeded. -/
def bounceApplied (p : JobParams) (env : ExecEnv) : Bool :=
  !(p.outFormat == "mp4") && stepsSucceed p env && p.bounce && env.bounceOk

/-- The allowed status transitions of the job state machine:
stay put, `queued → running`, or `running → done|error`.  A terminal status
admits no move other than staying unchanged. -/
def stepOk (a b : JobRecord) : Prop :=
  a.status = b.status
  ∨ (a.status = .queued ∧ b.status = .running)
  ∨ (a.status = .running ∧ (b.status = .done ∨ b.status = .error))

/-- The terminal-field invariant of the data model: `output` is populated
exactly in `done`, `error` exactly in `error`. -/
def recordConsistent (r : JobRecord) : Prop :=
  (r.output.isSome ↔ r.status = .done) ∧ (r.error.isSome ↔ r.status = .error)

/-- Modelled from the spec: `percent = clamp(0, 99.9, elapsed/totalDuration * 100)`,
the progress formula as the specification words it, with the caller's
total duration itself as the denominator. -/
def specClampPct (elapsedMedia totalDur : ℚ) : ℚ :=
  min (999 / 10) (max 0 (elapsedMedia / totalDur * 100))

/-! ## Ken Burns frame synthesis (gif_maker.py, single_image_to_gif_kenburns) -/

/-- The frame count `total_frames = max(3, int(duration * fps))`. -/
def kenburnsTotalFrames (duration : ℚ) (fps : ℤ) : ℤ :=
  max 3 (ratTrunc (duration * fps))

/-- Modelled from the spec: `frameCount = max(3, round(duration * fps))`,
the frame-count formula as the specification words it (rounding, not
truncation). -/
def specFrameCount (duration : ℚ) (fps : ℤ) : ℤ :=
  max 3 (round (duration * fps))

/-- The normalized times of the synthesized frames:
`t = i / max(1, total_frames - 1)` for `i in range(total_frames)`. -/
def kenburnsTs (duration : ℚ) (fps : ℤ) : List ℚ :=
  (List.range (kenburnsTotalFrames duration fps).toNat).map
    (fun i : ℕ =>
      ((i : ℤ) : ℚ) / ((max 1 (kenburnsTotalFrames duration fps - 1) : ℤ) : ℚ))

/-- The per-frame scale `scale = 1.0 + (zoom - 1.0) * ease`. -/
def kenburnsScale (zoom ease : ℚ) : ℚ := 1 + (zoom - 1) * ease

/-- One interpolated pan-center coordinate:
`int(start * (1 - ease) + end * ease)`. -/
def kenburnsCenter (s e : ℤ) (ease : ℚ) : ℤ :=
  ratTrunc ((s : ℚ) * (1 - ease) + (e : ℚ) * ease)

/-- The start and end pan centers of the `"diagonal"` path:
`(int(W*0.15), int(H*0.15))` to `(int(W*0.85), int(H*0.85))`. -/
def diagonalCenters (origW origH : ℤ) : (ℤ × ℤ) × (ℤ × ℤ) :=
  ((ratTrunc ((origW : ℚ) * (15 / 100)), ratTrunc ((origH : ℚ) * (15 / 100))),
   (ratTrunc ((origW : ℚ) * (85 / 100)), ratTrunc ((origH : ℚ) * (85 / 100))))

/-- An axis-aligned pixel rectangle `(left, top, right, bottom)`. -/
structure Box where
  left : ℤ
  top : ℤ
  right : ℤ
  bottom : ℤ
deriving DecidableEq, Repr

/-- The per-frame crop rectangle of `single_image_to_gif_kenburns`:
`crop_w = int(orig_w / scale)`, `crop_h = int(orig_h / scale)`,
`left = max(0, min(orig_w - crop_w, cx - crop_w // 2))`,
`top = max(0, min(orig_h - crop_h, cy - crop_h // 2))`,
box `(left, top, left + crop_w, top + crop_h)`. -/
def kenburnsCropBox (origW origH : ℤ) (zoom ease : ℚ) (cx cy : ℤ) : Box :=
  let scale := kenburnsScale zoom ease
  let cropW := ratTrunc ((origW : ℚ) / scale)
  let cropH := ratTrunc ((origH : ℚ) / scale)
  let l := max 0 (min (origW - cropW) (cx - cropW.fdiv 2))
  let t := max 0 (min (origH - cropH) (cy - cropH.fdiv 2))
  { left := l, top := t, right := l + cropW, bottom := t + cropH }

/-! ## images_to_gif sizing (gif_maker.py) -/

/-- The common target size chosen by `images_to_gif`: the explicit size when
given, otherwise the smallest input width and smallest input height; `none`
models the `ValueError` raised on an empty input list. -/
def imagesToGifTarget (sizes : List (ℤ × ℤ)) (explicit : Option (ℤ × ℤ)) :
    Option (ℤ × ℤ) :=
  match sizes with
  | [] => none
  | s :: rest =>
    some (match explicit with
      | some e => e
      | none =>
        (List.foldl min s.1 (rest.map Prod.fst),
         List.foldl min s.2 (rest.map Prod.snd)))

/-- The centered aspect-ratio crop of `images_to_gif` for one source image of
size `(w, h)` and target size `(tw, th)`: no crop when the ratios agree
within `1e-6`; otherwise crop the sides (source wider) or the top and
bottom (source taller), centered. -/
def centerCropBox (w h tw th : ℤ) : Box :=
  let srcRatio : ℚ := (w : ℚ) / (h : ℚ)
  let tgtRatio : ℚ := (tw : ℚ) / (th : ℚ)
  if |srcRatio - tgtRatio| ≤ 1 / 1000000 then
    { left := 0, top := 0, right := w, bottom := h }
  else if tgtRatio < srcRatio then
    let newW := ratTrunc ((h : ℚ) * tgtRatio)
    let l := (w - newW).fdiv 2
    { left := l, top := 0, right := l + newW, bottom := h }
  else
    let newH := ratTrunc ((w : ℚ) / tgtRatio)
    let t := (h - newH).fdiv 2
    { left := 0, top := t, right := w, bottom := t + newH }

/-- The sizes of the frames `images_to_gif` appends: every cropped image is
resized to the common target size. -/
def imagesToGifFrameSizes (sizes : List (ℤ × ℤ)) (explicit : Option (ℤ × ℤ)) :
    Option (List (ℤ × ℤ)) :=
  match imagesToGifTarget sizes explicit with
  | none => none
  | some t => some (sizes.map (fun _ => t))

/-! ## ffmpeg command construction (process_video_job) -/

/-- The scale filter of the intermediate re-encode:
`f"scale={max(320, int(width))}:-2"`. -/
def scaleExpr (width : ℤ) : String :=
  "scale=" ++ toString (max 320 width) ++ ":-2"

/-- The intermediate re-encode command of `process_video_job`. -/
def recodeCmd (start segLen : ℚ) (inputVideo : String) (width : ℤ)
    (smallVideo : String) : List String :=
  ["ffmpeg", "-y", "-ss", toString start, "-t", toString segLen,
   "-i", inputVideo, "-vf", scaleExpr width,
   "-c:v", "libx264", "-preset", "veryfast", "-crf", "23", "-an", smallVideo]

/-- The palette-generation command of the GIF path. -/
def palettegenCmd (smallVideo : String) (fps width : ℤ) (pal : String) :
    List String :=
  ["ffmpeg", "-y", "-i", smallVideo,
   "-vf", "fps=" ++ toString fps ++ ",scale=" ++ toString (max 320 width)
     ++ ":-2:flags=lanczos,palettegen",
   pal]

/-- The palette-using GIF encode command of the GIF path. -/
def gifEncodeCmd (smallVideo pal : String) (fps width : ℤ) (loopForever : Bool)
    (loops : ℤ) (finalOut : String) : List String :=
  ["ffmpeg", "-y", "-i", smallVideo, "-i", pal,
   "-lavfi", "fps=" ++ toString fps ++ ",scale=" ++ toString (max 320 width)
     ++ ":-2:flags=lanczos[x];[x][1:v]paletteuse",
   "-loop", if loopForever then "0" else toString loops, finalOut]

/-- Default of `params.get('start', 0.0)`: a missing start is 0. -/
def parseStart (o : Option ℚ) : ℚ := o.getD 0

/-- A concrete GIF job parameter set (route defaults). -/
def gifParams : JobParams :=
  { start := 0, stop := none, fps := 12, width := 640, outFormat := "gif",
    speed := 1, loops := 0, loopForever := false, bounce := false }

/-- A concrete execution environment in which every external step succeeds. -/
def okEnv : ExecEnv :=
  { probeResult := some 10, tmpdir := "/tmp/job", recodeOk := true,
    progressLines := [(5, 2)], mainRc := 0, paletteOk := true, bounceOk := true }

/-! ## Helper lemmas -/

theorem progressUpdate_status (d n e : ℚ) (r : JobRecord) :
    (progressUpdate d n e r).status = r.status := rfl

theorem progressUpdate_output (d n e : ℚ) (r : JobRecord) :
    (progressUpdate d n e r).output = r.output := rfl

theorem progressUpdate_error (d n e : ℚ) (r : JobRecord) :
    (progressUpdate d n e r).error = r.error := rfl

theorem progressUpdate_progress (d n e : ℚ) (r : JobRecord) :
    (progressUpdate d n e r).progress = min (999 / 10) (max 0 (n / max 1 d * 100)) := rfl

theorem progressUpdate_eta (d n e : ℚ) (r : JobRecord) :
    (progressUpdate d n e r).eta =
      (if 1 / 2 < min (999 / 10) (max 0 (n / max 1 d * 100)) then
        some (max 0 (e * (100 / min (999 / 10) (max 0 (n / max 1 d * 100)) - 1)))
      else none) := rfl

theorem runProgressTrace_getLastD (d : ℚ) (lines : List (ℚ × ℚ)) (r : JobRecord) :
    ((runProgressTrace d lines r).getLastD r).status = r.status
    ∧ ((runProgressTrace d lines r).getLastD r).output = r.output
    ∧ ((runProgressTrace d lines r).getLastD r).error = r.error := by
  induction lines generalizing r with
  | nil => exact ⟨rfl, rfl, rfl⟩
  | cons pr rest ih =>
    obtain ⟨now, el⟩ := pr
    have h := ih (progressUpdate d now el r)
    have e1 : runProgressTrace d ((now, el) :: rest) r =
        progressUpdate d now el r :: runProgressTrace d rest (progressUpdate d now el r) := rfl
    rw [e1, List.getLastD_cons]
    exact ⟨h.1.trans (progressUpdate_status d now el r),
      h.2.1.trans (progressUpdate_output d now el r),
      h.2.2.trans (progressUpdate_error d now el r)⟩

theorem runProgressTrace_mem (d : ℚ) (lines : List (ℚ × ℚ)) (r : JobRecord) :
    ∀ x ∈ runProgressTrace d lines r,
      x.status = r.status ∧ x.output = r.output ∧ x.error = r.error := by
  induction lines generalizing r with
  | nil => intro x hx; simp [runProgressTrace] at hx
  | cons pr rest ih =>
    obtain ⟨now, el⟩ := pr
    intro x hx
    rcases List.mem_cons.mp hx with rfl | hx2
    · exact ⟨rfl, rfl, rfl⟩
    · have h := ih (progressUpdate d now el r) x hx2
      simpa [progressUpdate_status, progressUpdate_output, progressUpdate_error] using h

theorem encodePhase_nil (d : ℚ) (rc : ℤ) (out : String) (r : JobRecord) :
    encodePhase d [] rc out r =
      [if rc = 0 then mkDone r out else mkError r ("ffmpeg exit " ++ toString rc)] := rfl

theorem encodePhase_cons (d now el : ℚ) (rest : List (ℚ × ℚ)) (rc : ℤ) (out : String)
    (r : JobRecord) :
    encodePhase d ((now, el) :: rest) rc out r =
      progressUpdate d now el r :: encodePhase d rest rc out (progressUpdate d now el r) := by
  show (progressUpdate d now el r :: runProgressTrace d rest (progressUpdate d now el r)) ++
      [if rc = 0 then
        mkDone ((progressUpdate d now el r ::
          runProgressTrace d rest (progressUpdate d now el r)).getLastD r) out
      else
        mkError ((progressUpdate d now el r ::
          runProgressTrace d rest (progressUpdate d now el r)).getLastD r)
          ("ffmpeg exit " ++ toString rc)] =
    progressUpdate d now el r :: encodePhase d rest rc out (progressUpdate d now el r)
  rw [List.getLastD_cons, List.cons_append]
  rfl

theorem mkDone_status (r : JobRecord) (out : String) : (mkDone r out).status = .done := rfl

theorem mkError_status (r : JobRecord) (msg : String) : (mkError r msg).status = .error := rfl

theorem encodePhase_chain (d : ℚ) (lines : List (ℚ × ℚ)) (rc : ℤ) (out : String) :
    ∀ r : JobRecord, r.status = .running →
      List.Chain' stepOk (r :: encodePhase d lines rc out r) := by
  induction lines with
  | nil =>
    intro r h
    rw [encodePhase_nil]
    refine List.chain'_cons.mpr ⟨?_, List.chain'_singleton _⟩
    by_cases hrc : rc = 0
    · rw [if_pos hrc]
      exact Or.inr (Or.inr ⟨h, Or.inl (mkDone_status r out)⟩)
    · rw [if_neg hrc]
      exact Or.inr (Or.inr ⟨h, Or.inr (mkError_status r _)⟩)
  | cons pr rest ih =>
    obtain ⟨now, el⟩ := pr
    intro r h
    rw [encodePhase_cons]
    refine List.chain'_cons.mpr ⟨Or.inl (progressUpdate_status d now el r).symm, ?_⟩
    exact ih (progressUpdate d now el r) ((progressUpdate_status d now el r).trans h)

theorem encodePhase_mem (d : ℚ) (lines : List (ℚ × ℚ)) (rc : ℤ) (out : String) :
    ∀ r : JobRecord, r.status = .running → r.output = none → r.error = none →
      ∀ x ∈ encodePhase d lines rc out r, recordConsistent x := by
  induction lines with
  | nil =>
    intro r hs ho he x hx
    rw [encodePhase_nil] at hx
    rcases List.mem_singleton.mp hx with rfl
    by_cases hrc : rc = 0
    · rw [if_pos hrc]
      exact ⟨by simp [mkDone], by simp [mkDone, he]⟩
    · rw [if_neg hrc]
      exact ⟨by simp [mkError, ho], by simp [mkError]⟩
  | cons pr rest ih =>
    obtain ⟨now, el⟩ := pr
    intro r hs ho he x hx
    rw [encodePhase_cons] at hx
    rcases List.mem_cons.mp hx with rfl | hx2
    · exact ⟨by simp [progressUpdate_output, ho, progressUpdate_status, hs],
        by simp [progressUpdate_error, he, progressUpdate_status, hs]⟩
    · exact ih (progressUpdate d now el r) ((progressUpdate_status d now el r).trans hs)
        ((progressUpdate_output d now el r).trans ho)
        ((progressUpdate_error d now el r).trans he) x hx2

theorem encodePhase_getLastD (d : ℚ) (lines : List (ℚ × ℚ)) (rc : ℤ) (out : String)
    (r y : JobRecord) :
    (encodePhase d lines rc out r).getLastD y =
      (if rc = 0 then mkDone ((runProgressTrace d lines r).getLastD r) out
       else mkError ((runProgressTrace d lines r).getLastD r)
         ("ffmpeg exit " ++ toString rc)) := by
  show (runProgressTrace d lines r ++
      [if rc = 0 then mkDone ((runProgressTrace d lines r).getLastD r) out
       else mkError ((runProgressTrace d lines r).getLastD r)
         ("ffmpeg exit " ++ toString rc)]).getLastD y = _
  rw [List.getLastD_concat]

theorem processVideoJob_eq (p : JobParams) (env : ExecEnv) :
    processVideoJob p env =
      initialRecord :: mkRunning initialRecord ::
        (if env.recodeOk = false then
          [mkError (mkRunning initialRecord) "re-encode step failed"]
         else if p.outFormat = "mp4" then
           encodePhase ((resolveSegment p.start p.stop (resolveTotalDur env)).2)
             env.progressLines env.mainRc (finalOutPath env.tmpdir p.outFormat)
             (mkRunning initialRecord)
         else if env.paletteOk = false then
           [mkError (mkRunning initialRecord) "palettegen step failed"]
         else
           encodePhase ((resolveSegment p.start p.stop (resolveTotalDur env)).2)
             env.progressLines env.mainRc (finalOutPath env.tmpdir p.outFormat)
             (mkRunning initialRecord)) := rfl

theorem stepsSucceed_iff (p : JobParams) (env : ExecEnv) :
    stepsSucceed p env = true ↔
      env.recodeOk = true ∧ env.mainRc = 0 ∧
        (p.outFormat = "mp4" ∨ env.paletteOk = true) := by
  simp [stepsSucceed, Bool.and_eq_true, Bool.or_eq_true, beq_iff_eq, and_assoc]

theorem encodePhase_getLastD_done (d : ℚ) (lines : List (ℚ × ℚ)) (out : String)
    (r y : JobRecord) (hs : r.error = none) :
    (encodePhase d lines 0 out r).getLastD y =
      { status := .done, progress := 100, eta := some 0, output := some out,
        error := none } := by
  rw [encodePhase_getLastD, if_pos rfl]
  have h := (runProgressTrace_getLastD d lines r).2.2
  show ({ (runProgressTrace d lines r).getLastD r with
    status := .done, progress := 100, eta := some 0, output := some out } : JobRecord) = _
  rw [JobRecord.mk.injEq]
  exact ⟨rfl, rfl, rfl, rfl, h.trans hs⟩

theorem getLastD_single (a d : JobRecord) : List.getLastD [a] d = a := rfl

theorem processVideoJob_last_success (p : JobParams) (env : ExecEnv)
    (h : stepsSucceed p env = true) :
    (processVideoJob p env).getLastD initialRecord =
      { status := .done, progress := 100, eta := some 0,
        output := some (finalOutPath env.tmpdir p.outFormat), error := none } := by
  obtain ⟨hrec, hrc, hbranch⟩ := (stepsSucceed_iff p env).mp h
  rw [processVideoJob_eq, List.getLastD_cons, List.getLastD_cons,
    if_neg (by simp [hrec]), hrc]
  by_cases hfmt : p.outFormat = "mp4"
  · rw [if_pos hfmt]
    exact encodePhase_getLastD_done _ _ _ _ _ rfl
  · have hpal : env.paletteOk = true := by
      rcases hbranch with h1 | h1
      · exact absurd h1 hfmt
      · exact h1
    rw [if_neg hfmt, if_neg (by simp [hpal])]
    exact encodePhase_getLastD_done _ _ _ _ _ rfl

theorem processVideoJob_last_status (p : JobParams) (env : ExecEnv) :
    ((processVideoJob p env).getLastD initialRecord).status =
      (if stepsSucceed p env then Status.done else Status.error) := by
  rw [processVideoJob_eq, List.getLastD_cons, List.getLastD_cons]
  cases hrec : env.recodeOk with
  | false =>
    rw [if_pos rfl, getLastD_single]
    simp [stepsSucceed, hrec, mkError_status]
  | true =>
    rw [if_neg (by simp [hrec])]
    by_cases hfmt : p.outFormat = "mp4"
    · rw [if_pos hfmt, encodePhase_getLastD]
      by_cases hrc : env.mainRc = 0
      · rw [if_pos hrc]
        simp [stepsSucceed, beq_iff_eq, hrec, hrc, hfmt, mkDone_status]
      · rw [if_neg hrc]
        have hss : stepsSucceed p env = false := by
          simp [stepsSucceed, beq_iff_eq, hrc]
        simp [hss, mkError_status]
    · rw [if_neg hfmt]
      cases hpal : env.paletteOk with
      | false =>
        rw [if_pos rfl, getLastD_single]
        have hss : stepsSucceed p env = false := by
          simp [stepsSucceed, beq_iff_eq, hpal, hfmt]
        simp [hss, mkError_status]
      | true =>
        rw [if_neg (by simp [hpal]), encodePhase_getLastD]
        by_cases hrc : env.mainRc = 0
        · rw [if_pos hrc]
          simp [stepsSucceed, beq_iff_eq, hrec, hrc, hpal, mkDone_status]
        · rw [if_neg hrc]
          have hss : stepsSucceed p env = false := by
            simp [stepsSucceed, beq_iff_eq, hrc]
          simp [hss, mkError_status]

theorem processVideoJob_chain (p : JobParams) (env : ExecEnv) :
    List.Chain' stepOk (processVideoJob p env) := by
  rw [processVideoJob_eq]
  refine List.chain'_cons.mpr ⟨Or.inr (Or.inl ⟨rfl, rfl⟩), ?_⟩
  split_ifs with h1 h2 h3
  · exact List.chain'_cons.mpr
      ⟨Or.inr (Or.inr ⟨rfl, Or.inr rfl⟩), List.chain'_singleton _⟩
  · exact encodePhase_chain _ _ _ _ _ rfl
  · exact List.chain'_cons.mpr
      ⟨Or.inr (Or.inr ⟨rfl, Or.inr rfl⟩), List.chain'_singleton _⟩
  · exact encodePhase_chain _ _ _ _ _ rfl

theorem processVideoJob_mem (p : JobParams) (env : ExecEnv) :
    ∀ x ∈ processVideoJob p env, recordConsistent x := by
  rw [processVideoJob_eq]
  intro x hx
  rcases List.mem_cons.mp hx with rfl | hx1
  · exact ⟨by simp [initialRecord], by simp [initialRecord]⟩
  rcases List.mem_cons.mp hx1 with rfl | hx2
  · exact ⟨by simp [mkRunning, initialRecord], by simp [mkRunning, initialRecord]⟩
  split_ifs at hx2 with h1 h2 h3
  · rcases List.mem_singleton.mp hx2 with rfl
    exact ⟨by simp [mkError, mkRunning, initialRecord],
      by simp [mkError, mkRunning, initialRecord]⟩
  · exact encodePhase_mem _ _ _ _ _ rfl rfl rfl x hx2
  · rcases List.mem_singleton.mp hx2 with rfl
    exact ⟨by simp [mkError, mkRunning, initialRecord],
      by simp [mkError, mkRunning, initialRecord]⟩
  · exact encodePhase_mem _ _ _ _ _ rfl rfl rfl x hx2

/-! ## Claim theorems -/

/-- C1: for every job record created by submission, the status transitions
only along queued → running → {done, error}, a terminal state is never left,
`output`/`error` are each populated exactly in their terminal state, and on
success the final record is `status=done`, `progress=100`, `eta=0`, with
`output` the final artifact path. -/
theorem C1_job_lifecycle (p : JobParams) (env : ExecEnv) :
    List.Chain' stepOk (processVideoJob p env)
    ∧ (∀ r ∈ processVideoJob p env, recordConsistent r)
    ∧ (∀ a b : JobRecord, stepOk a b →
        a.status = .done ∨ a.status = .error → b.status = a.status)
    ∧ (stepsSucceed p env = true →
        (processVideoJob p env).getLastD initialRecord =
          { status := .done, progress := 100, eta := some 0,
            output := some (finalOutPath env.tmpdir p.outFormat), error := none }) := by
  refine ⟨processVideoJob_chain p env, processVideoJob_mem p env, ?_,
    processVideoJob_last_success p env⟩
  intro a b h ht
  rcases h with h | h | h
  · exact h.symm
  · rcases ht with ht | ht <;> rw [h.1] at ht <;> exact absurd ht (by simp)
  · rcases ht with ht | ht <;> rw [h.1] at ht <;> exact absurd ht (by simp)

/-- Witness for C1: a concrete all-steps-succeed GIF job ends in the
expected `done` record. -/
theorem C1_job_lifecycle_witness :
    (processVideoJob gifParams okEnv).getLastD initialRecord =
      { status := .done, progress := 100, eta := some 0,
        output := some "/tmp/job/result.gif", error := none } := by
  have h := (C1_job_lifecycle gifParams okEnv).2.2.2
    (by simp [stepsSucceed, gifParams, okEnv])
  rw [h]
  simp [finalOutPath, gifParams, okEnv]

/-- C4: trim resolution — start defaults to 0, end defaults to the
probed/fallback duration and is clamped not to exceed it, and the segment
length is `max(0.1, end - start)`, strictly positive even when
`start == end` or `end < start`. -/
theorem C4_trim_resolution (s td : ℚ) (e? : Option ℚ) :
    parseStart none = 0
    ∧ (e? = none → (resolveSegment s e? td).1 = td)
    ∧ (∀ e : ℚ, e? = some e → (resolveSegment s e? td).1 = min e td)
    ∧ (resolveSegment s e? td).1 ≤ td
    ∧ (resolveSegment s e? td).2 = max (1 / 10) ((resolveSegment s e? td).1 - s)
    ∧ 0 < (resolveSegment s e? td).2 := by
  refine ⟨rfl, ?_, ?_, ?_, ?_, ?_⟩
  · intro h; subst h; rfl
  · intro e h; subst h; rfl
  · cases e? with
    | none => exact le_refl td
    | some e => exact min_le_right e td
  · cases e? with
    | none => rfl
    | some e => rfl
  · exact lt_of_lt_of_le (by norm_num) (le_max_left (1 / 10) _)

/-- Witness for C4: a request with `end < start` (start 5, end 3, duration
10) still yields the strictly positive segment length 0.1. -/
theorem C4_trim_resolution_witness :
    (resolveSegment 5 (some 3) 10).1 = 3 ∧ (resolveSegment 5 (some 3) 10).2 = 1 / 10
    ∧ (0:ℚ) < (resolveSegment 5 (some 3) 10).2 := by
  have h := C4_trim_resolution 5 10 (some 3)
  have h1 : (resolveSegment 5 (some 3) 10).1 = 3 := by
    rw [h.2.2.1 3 rfl]; norm_num
  refine ⟨h1, ?_, h.2.2.2.2.2⟩
  rw [h.2.2.2.2.1, h1]; norm_num

/-- C5: for every parsed progress line, `eta` is absent exactly when the
computed percent is ≤ 0.5; above that threshold it equals
`elapsed_wallclock * (100/percent - 1)` and is nonnegative (for nonnegative
wallclock time); and on completion `eta` is set to 0. -/
theorem C5_eta_policy :
    (∀ (dur now el : ℚ) (r : JobRecord), 0 ≤ el →
      ((progressUpdate dur now el r).progress ≤ 1 / 2 →
        (progressUpdate dur now el r).eta = none)
      ∧ (1 / 2 < (progressUpdate dur now el r).progress →
          (progressUpdate dur now el r).eta =
            some (el * (100 / (progressUpdate dur now el r).progress - 1))
          ∧ (0:ℚ) ≤ el * (100 / (progressUpdate dur now el r).progress - 1)))
    ∧ (∀ (p : JobParams) (env : ExecEnv), stepsSucceed p env = true →
        ((processVideoJob p env).getLastD initialRecord).eta = some 0) := by
  constructor
  · intro dur now el r hel
    rw [progressUpdate_progress, progressUpdate_eta]
    set pct := min (999 / 10 : ℚ) (max 0 (now / max 1 dur * 100)) with hpct
    constructor
    · intro hle
      rw [if_neg (not_lt.mpr hle)]
    · intro hgt
      have hpos : (0:ℚ) < pct := lt_trans (by norm_num) hgt
      have hlt100 : pct < 100 := lt_of_le_of_lt (min_le_left _ _) (by norm_num)
      have hquot : (1:ℚ) < 100 / pct := (one_lt_div hpos).mpr hlt100
      have hnn : (0:ℚ) ≤ el * (100 / pct - 1) :=
        mul_nonneg hel (by linarith)
      rw [if_pos hgt, max_eq_right hnn]
      exact ⟨rfl, hnn⟩
  · intro p env h
    rw [processVideoJob_last_success p env h]

/-- Witness for C5: a concrete line at 20% progress with 3 s elapsed gets
`eta = 3 * (100/20 - 1) = 12`. -/
theorem C5_eta_policy_witness :
    (progressUpdate 10 2 3 initialRecord).eta = some 12 := by
  have h := (C5_eta_policy.1 10 2 3 initialRecord (by norm_num)).2
  have hp : (progressUpdate 10 2 3 initialRecord).progress = 20 := by
    rw [progressUpdate_progress]; norm_num
  have h2 := h (by rw [hp]; norm_num)
  rw [h2.1, hp]
  norm_num

/-- C6: a probe failure makes the execution fall back to a fixed 60-second
duration and continue; the terminal status is decided entirely by the
required external steps, so a probe failure alone never yields `error`. -/
theorem C6_probe_fallback (p : JobParams) (env : ExecEnv)
    (h : env.probeResult = none) :
    resolveTotalDur env = 60
    ∧ ((processVideoJob p env).getLastD initialRecord).status =
        (if stepsSucceed p env then Status.done else Status.error) :=
  ⟨by rw [resolveTotalDur, h]; rfl, processVideoJob_last_status p env⟩

/-- Witness for C6: a concrete job whose probe failed but whose steps all
succeed uses the 60-second fallback and ends `done`. -/
theorem C6_probe_fallback_witness :
    resolveTotalDur { okEnv with probeResult := none } = 60
    ∧ ((processVideoJob gifParams { okEnv with probeResult := none }).getLastD
        initialRecord).status = Status.done := by
  have h := C6_probe_fallback gifParams { okEnv with probeResult := none } rfl
  refine ⟨h.1, ?_⟩
  rw [h.2, if_pos (by simp [stepsSucceed, gifParams, okEnv])]

/-- C7: when bounce is requested on a GIF job and the bounce post-process
fails, the job still ends `done` with the un-bounced artifact at the output
path, and no error is recorded. -/
theorem C7_bounce_best_effort (p : JobParams) (env : ExecEnv)
    (_hb : p.bounce = true) (_hfmt : p.outFormat ≠ "mp4") (hbf : env.bounceOk = false)
    (hs : stepsSucceed p env = true) :
    ((processVideoJob p env).getLastD initialRecord).status = .done
    ∧ ((processVideoJob p env).getLastD initialRecord).error = none
    ∧ ((processVideoJob p env).getLastD initialRecord).output =
        some (finalOutPath env.tmpdir p.outFormat)
    ∧ bounceApplied p env = false := by
  rw [processVideoJob_last_success p env hs]
  refine ⟨rfl, rfl, rfl, ?_⟩
  simp [bounceApplied, hbf]

/-- Witness for C7: a concrete bounce-requested GIF job whose gifsicle step
fails still ends `done` with no error and an un-bounced artifact. -/
theorem C7_bounce_best_effort_witness :
    ((processVideoJob { gifParams with bounce := true }
        { okEnv with bounceOk := false }).getLastD initialRecord).status = .done
    ∧ ((processVideoJob { gifParams with bounce := true }
        { okEnv with bounceOk := false }).getLastD initialRecord).error = none
    ∧ bounceApplied { gifParams with bounce := true }
        { okEnv with bounceOk := false } = false := by
  have h := C7_bounce_best_effort { gifParams with bounce := true }
    { okEnv with bounceOk := false } rfl (by simp [gifParams]) rfl
    (by simp [stepsSucceed, gifParams, okEnv])
  exact ⟨h.1, h.2.1, h.2.2.2⟩

/-- C2 (amended): for every parsed `time=` line the progress is set to
`clamp(0, 99.9, elapsed / max(1, totalDuration) * 100)` — the code divides
by `max(1.0, duration_seconds)`, not by the total duration itself — it
always stays strictly below 100, and it agrees with the claimed
`clamp(0, 99.9, elapsed/totalDuration * 100)` whenever `totalDuration ≥ 1`. -/
theorem C2_progress_formula (dur hh mm ss el : ℚ) (r : JobRecord) :
    (progressUpdate dur (hmsToSeconds hh mm ss) el r).progress =
      min (999 / 10) (max 0 (hmsToSeconds hh mm ss / max 1 dur * 100))
    ∧ (progressUpdate dur (hmsToSeconds hh mm ss) el r).progress < 100
    ∧ (1 ≤ dur →
        (progressUpdate dur (hmsToSeconds hh mm ss) el r).progress =
          specClampPct (hmsToSeconds hh mm ss) dur) := by
  refine ⟨progressUpdate_progress _ _ _ _, ?_, ?_⟩
  · rw [progressUpdate_progress]
    exact lt_of_le_of_lt (min_le_left _ _) (by norm_num)
  · intro h1
    rw [progressUpdate_progress, specClampPct, max_eq_right h1]

/-- Counterexample for C2: a run with `totalDuration = 0.5 > 0` (a legal
segment length, e.g. `start=0, end=0.5`) and a line `time=00:00:00.4` sets
progress to 40 (denominator `max(1, 0.5) = 1`), not the claimed
`clamp(0, 99.9, 0.4/0.5*100) = 80`. -/
theorem C2_counterexample :
    (0:ℚ) < 1 / 2
    ∧ (progressUpdate (1 / 2) (hmsToSeconds 0 0 (2 / 5)) 1 initialRecord).progress = 40
    ∧ specClampPct (hmsToSeconds 0 0 (2 / 5)) (1 / 2) = 80
    ∧ (progressUpdate (1 / 2) (hmsToSeconds 0 0 (2 / 5)) 1 initialRecord).progress ≠
        specClampPct (hmsToSeconds 0 0 (2 / 5)) (1 / 2) := by
  refine ⟨by norm_num, ?_, ?_, ?_⟩
  · rw [progressUpdate_progress, hmsToSeconds]; norm_num
  · rw [specClampPct, hmsToSeconds]; norm_num
  · rw [progressUpdate_progress, specClampPct, hmsToSeconds]; norm_num

/-- Witness for C2 (amended): with `totalDuration = 2 ≥ 1` the code's
progress equals the spec formula. -/
theorem C2_progress_formula_witness :
    (progressUpdate 2 (hmsToSeconds 0 0 1) 0 initialRecord).progress =
      specClampPct (hmsToSeconds 0 0 1) 2 :=
  (C2_progress_formula 2 0 0 1 0 initialRecord).2.2 (by norm_num)

/-- C3 (amended): the Frame Synthesizer produces exactly
`max(3, trunc(duration * fps))` frames — Python's `int()` truncates rather
than rounds — with at least 3 frames always; the claim's two examples
(45 frames for 3.0 s at 15 fps, 3 frames for 0.1 s at 1 fps) hold. -/
theorem C3_frame_count (duration : ℚ) (fps : ℤ) :
    (kenburnsTs duration fps).length = (kenburnsTotalFrames duration fps).toNat
    ∧ kenburnsTotalFrames duration fps = max 3 (ratTrunc (duration * fps))
    ∧ 3 ≤ kenburnsTotalFrames duration fps
    ∧ kenburnsTotalFrames 3 15 = 45
    ∧ kenburnsTotalFrames (1 / 10) 1 = 3 := by
  refine ⟨by rw [kenburnsTs, List.length_map, List.length_range], rfl,
    le_max_left _ _, ?_, ?_⟩
  · show max 3 (ratTrunc ((3:ℚ) * ((15:ℤ):ℚ))) = 45
    norm_num [ratTrunc]
  · show max 3 (ratTrunc ((1/10:ℚ) * ((1:ℤ):ℚ))) = 3
    norm_num [ratTrunc]

/-- Counterexample for C3: for `duration=3.7, fps=1` the code synthesizes
`max(3, int(3.7)) = 3` frames while the claimed formula gives
`max(3, round(3.7)) = 4`. -/
theorem C3_counterexample :
    kenburnsTotalFrames (37 / 10) 1 = 3
    ∧ specFrameCount (37 / 10) 1 = 4
    ∧ kenburnsTotalFrames (37 / 10) 1 ≠ specFrameCount (37 / 10) 1 := by
  have h1 : kenburnsTotalFrames (37 / 10) 1 = 3 := by
    show max 3 (ratTrunc ((37/10:ℚ) * ((1:ℤ):ℚ))) = 3
    norm_num [ratTrunc]
  have h2 : specFrameCount (37 / 10) 1 = 4 := by
    show max 3 (round ((37/10:ℚ) * ((1:ℤ):ℚ))) = 4
    norm_num [round_eq]
  exact ⟨h1, h2, by rw [h1, h2]; norm_num⟩

/-- The eased time `0.5 - 0.5*cos(pi*t)` of the frame loop always lies in
`[0, 1]`, so the `ease` parameter of the crop-box model ranges over `[0, 1]`. -/
theorem easeRange (t : ℝ) :
    0 ≤ 1 / 2 - 1 / 2 * Real.cos (Real.pi * t)
    ∧ 1 / 2 - 1 / 2 * Real.cos (Real.pi * t) ≤ 1 := by
  have h1 := Real.neg_one_le_cos (Real.pi * t)
  have h2 := Real.cos_le_one (Real.pi * t)
  constructor <;> linarith

/-- The eased time is exactly 0 at the first frame (`t = 0`) and exactly 1 at
the last frame (`t = 1`). -/
theorem easeAtEnds :
    1 / 2 - 1 / 2 * Real.cos (Real.pi * 0) = 0
    ∧ 1 / 2 - 1 / 2 * Real.cos (Real.pi * 1) = 1 := by
  constructor
  · rw [mul_zero, Real.cos_zero]; norm_num
  · rw [mul_one, Real.cos_pi]; norm_num

theorem cropDim_bounds (n : ℤ) (hn : 0 ≤ n) (s : ℚ) (hs : 1 ≤ s) :
    0 ≤ ratTrunc ((n : ℚ) / s) ∧ ratTrunc ((n : ℚ) / s) ≤ n := by
  have hn2 : (0:ℚ) ≤ (n:ℚ) := by exact_mod_cast hn
  have hq : (0:ℚ) ≤ (n:ℚ) / s := div_nonneg hn2 (le_trans zero_le_one hs)
  rw [ratTrunc, if_pos hq]
  refine ⟨Int.floor_nonneg.mpr hq, ?_⟩
  calc ⌊(n:ℚ) / s⌋ ≤ ⌊(n:ℚ)⌋ := Int.floor_le_floor (div_le_self hn2 hs)
    _ = n := Int.floor_intCast n

theorem axisClamp_bounds (n cw c : ℤ) (h1 : cw ≤ n) :
    0 ≤ max 0 (min (n - cw) c) ∧ max 0 (min (n - cw) c) + cw ≤ n := by
  refine ⟨le_max_left _ _, ?_⟩
  have h2 : max 0 (min (n - cw) c) ≤ n - cw :=
    max_le (by linarith) (min_le_left _ _)
  linarith

/-- C8 (amended): for every zoom multiplier ≥ 1 — so the scale never drops
below 1 and the crop never outgrows the source — the per-frame crop
rectangle is shifted inward to satisfy `0 ≤ left`, `left + cropW ≤ origW`,
`0 ≤ top`, `top + cropH ≤ origH`, for every source size, eased time in
`[0, 1]`, and pan center.  (For zoom < 1, which the operation also accepts,
the bound fails: see the counterexample.) -/
theorem C8_crop_in_bounds (origW origH : ℤ) (zoom ease : ℚ) (cx cy : ℤ)
    (hW : 0 ≤ origW) (hH : 0 ≤ origH) (hz : 1 ≤ zoom) (he0 : 0 ≤ ease)
    (_he1 : ease ≤ 1) :
    0 ≤ (kenburnsCropBox origW origH zoom ease cx cy).left
    ∧ (kenburnsCropBox origW origH zoom ease cx cy).right ≤ origW
    ∧ 0 ≤ (kenburnsCropBox origW origH zoom ease cx cy).top
    ∧ (kenburnsCropBox origW origH zoom ease cx cy).bottom ≤ origH := by
  have hs : 1 ≤ kenburnsScale zoom ease := by
    have hm := mul_nonneg (sub_nonneg.mpr hz) he0
    rw [kenburnsScale]; linarith
  obtain ⟨hw0, hw1⟩ := cropDim_bounds origW hW (kenburnsScale zoom ease) hs
  obtain ⟨hh0, hh1⟩ := cropDim_bounds origH hH (kenburnsScale zoom ease) hs
  obtain ⟨hl0, hl1⟩ := axisClamp_bounds origW
    (ratTrunc ((origW : ℚ) / kenburnsScale zoom ease))
    (cx - (ratTrunc ((origW : ℚ) / kenburnsScale zoom ease)).fdiv 2) hw1
  obtain ⟨ht0, ht1⟩ := axisClamp_bounds origH
    (ratTrunc ((origH : ℚ) / kenburnsScale zoom ease))
    (cy - (ratTrunc ((origH : ℚ) / kenburnsScale zoom ease)).fdiv 2) hh1
  exact ⟨hl0, hl1, ht0, ht1⟩

/-- Witness for C8 (amended): a concrete frame (100×100 source, zoom 2,
mid-animation ease 1/2, center (50,50)) stays inside the source bounds. -/
theorem C8_crop_in_bounds_witness :
    0 ≤ (kenburnsCropBox 100 100 2 (1 / 2) 50 50).left
    ∧ (kenburnsCropBox 100 100 2 (1 / 2) 50 50).right ≤ 100
    ∧ 0 ≤ (kenburnsCropBox 100 100 2 (1 / 2) 50 50).top
    ∧ (kenburnsCropBox 100 100 2 (1 / 2) 50 50).bottom ≤ 100 :=
  C8_crop_in_bounds 100 100 2 (1 / 2) 50 50 (by norm_num) (by norm_num)
    (by norm_num) (by norm_num) (by norm_num)

/-- Counterexample for C8: the operation accepts `zoom = 0.5`; at the last
frame (ease = 1, where the diagonal pan center of a 100×100 image is
(85, 85)) the crop box's right edge is 200, far beyond the source width 100
— the crop rectangle is not kept inside the image for every accepted zoom. -/
theorem C8_counterexample :
    kenburnsCenter (diagonalCenters 100 100).1.1 (diagonalCenters 100 100).2.1 1 = 85
    ∧ (kenburnsCropBox 100 100 (1 / 2) 1 85 85).right = 200
    ∧ ¬((kenburnsCropBox 100 100 (1 / 2) 1 85 85).right ≤ 100) := by
  have hc : kenburnsCenter (diagonalCenters 100 100).1.1
      (diagonalCenters 100 100).2.1 1 = 85 := by
    norm_num [diagonalCenters, kenburnsCenter, ratTrunc]
  have hf : Int.fdiv 200 2 = 100 := by decide
  have h2 : (kenburnsCropBox 100 100 (1 / 2) 1 85 85).right = 200 := by
    norm_num [kenburnsCropBox, kenburnsScale, ratTrunc, hf]
  exact ⟨hc, h2, by rw [h2]; decide⟩

theorem foldl_min_le_head (a : ℤ) (l : List ℤ) : List.foldl min a l ≤ a := by
  induction l generalizing a with
  | nil => exact le_refl a
  | cons b t ih => exact le_trans (ih (min a b)) (min_le_left a b)

theorem foldl_min_le_mem (a : ℤ) (l : List ℤ) : ∀ x ∈ l, List.foldl min a l ≤ x := by
  induction l generalizing a with
  | nil => intro x hx; simp at hx
  | cons b t ih =>
    intro x hx
    rcases List.mem_cons.mp hx with rfl | hx2
    · exact le_trans (foldl_min_le_head (min a x) t) (min_le_right a x)
    · exact ih (min a b) x hx2

theorem foldl_min_mem (a : ℤ) (l : List ℤ) : List.foldl min a l ∈ a :: l := by
  induction l generalizing a with
  | nil => exact List.mem_singleton.mpr rfl
  | cons b t ih =>
    have h := ih (min a b)
    rw [List.foldl_cons]
    rcases List.mem_cons.mp h with h1 | h1
    · rcases min_choice a b with h2 | h2
      · rw [h1, h2]; exact List.mem_cons_self _ _
      · rw [h1, h2]
        exact List.mem_cons_of_mem _ (List.mem_cons_self _ _)
    · exact List.mem_cons_of_mem _ (List.mem_cons_of_mem _ h1)

theorem centerCropBox_centered (w h tw th : ℤ) :
    (centerCropBox w h tw th).left =
      (w - ((centerCropBox w h tw th).right - (centerCropBox w h tw th).left)).fdiv 2
    ∧ (centerCropBox w h tw th).top =
      (h - ((centerCropBox w h tw th).bottom - (centerCropBox w h tw th).top)).fdiv 2 := by
  simp only [centerCropBox]
  split_ifs with h1 h2
  · constructor
    · rw [sub_zero, sub_self]; rfl
    · rw [sub_zero, sub_self]; rfl
  · constructor
    · rw [add_sub_cancel_left]
    · rw [sub_zero, sub_self]; rfl
  · constructor
    · rw [sub_zero, sub_self]; rfl
    · rw [add_sub_cancel_left]

theorem centerCropBox_bounds (w h tw th : ℤ) (hw : 0 < w) (hh : 0 < h)
    (htw : 0 < tw) (hth : 0 < th) :
    0 ≤ (centerCropBox w h tw th).left ∧ (centerCropBox w h tw th).right ≤ w
    ∧ 0 ≤ (centerCropBox w h tw th).top ∧ (centerCropBox w h tw th).bottom ≤ h := by
  have hwq : (0:ℚ) < (w:ℚ) := by exact_mod_cast hw
  have hhq : (0:ℚ) < (h:ℚ) := by exact_mod_cast hh
  have htwq : (0:ℚ) < (tw:ℚ) := by exact_mod_cast htw
  have hthq : (0:ℚ) < (th:ℚ) := by exact_mod_cast hth
  have htgt : (0:ℚ) < (tw:ℚ) / (th:ℚ) := div_pos htwq hthq
  simp only [centerCropBox]
  split_ifs with h1 h2
  · exact ⟨le_refl 0, le_refl w, le_refl 0, le_refl h⟩
  · have hnn : (0:ℚ) ≤ (h:ℚ) * ((tw:ℚ) / (th:ℚ)) :=
      le_of_lt (mul_pos hhq htgt)
    have hWlt : (h:ℚ) * ((tw:ℚ) / (th:ℚ)) < (w:ℚ) := by
      have h3 : (tw:ℚ) / (th:ℚ) * (h:ℚ) < (w:ℚ) := (lt_div_iff₀ hhq).mp h2
      linarith [h3, mul_comm ((h:ℚ)) ((tw:ℚ) / (th:ℚ))]
    have htr : ratTrunc ((h:ℚ) * ((tw:ℚ) / (th:ℚ))) =
        ⌊(h:ℚ) * ((tw:ℚ) / (th:ℚ))⌋ := by rw [ratTrunc, if_pos hnn]
    have h0 : 0 ≤ ⌊(h:ℚ) * ((tw:ℚ) / (th:ℚ))⌋ := Int.floor_nonneg.mpr hnn
    have hltq : (⌊(h:ℚ) * ((tw:ℚ) / (th:ℚ))⌋ : ℚ) < (w:ℚ) :=
      lt_of_le_of_lt (Int.floor_le _) hWlt
    have hlt : ⌊(h:ℚ) * ((tw:ℚ) / (th:ℚ))⌋ < w := by exact_mod_cast hltq
    rw [htr]
    have hm : 0 ≤ w - ⌊(h:ℚ) * ((tw:ℚ) / (th:ℚ))⌋ := by linarith
    have hl0 : 0 ≤ (w - ⌊(h:ℚ) * ((tw:ℚ) / (th:ℚ))⌋).fdiv 2 :=
      Int.fdiv_nonneg hm (by norm_num)
    have hl1 : (w - ⌊(h:ℚ) * ((tw:ℚ) / (th:ℚ))⌋).fdiv 2 ≤
        w - ⌊(h:ℚ) * ((tw:ℚ) / (th:ℚ))⌋ := by
      rw [Int.fdiv_eq_ediv _ (by norm_num)]
      exact Int.ediv_le_self 2 hm
    refine ⟨hl0, ?_, le_refl 0, le_refl h⟩
    show (w - ⌊(h:ℚ) * ((tw:ℚ) / (th:ℚ))⌋).fdiv 2 + ⌊(h:ℚ) * ((tw:ℚ) / (th:ℚ))⌋ ≤ w
    linarith
  · have hne : (w:ℚ) / (h:ℚ) ≠ (tw:ℚ) / (th:ℚ) := by
      intro he
      exact h1 (by rw [he, sub_self, abs_zero]; norm_num)
    have hlt2 : (w:ℚ) / (h:ℚ) < (tw:ℚ) / (th:ℚ) :=
      lt_of_le_of_ne (not_lt.mp h2) hne
    have hnn : (0:ℚ) ≤ (w:ℚ) / ((tw:ℚ) / (th:ℚ)) :=
      le_of_lt (div_pos hwq htgt)
    have hWlt : (w:ℚ) / ((tw:ℚ) / (th:ℚ)) < (h:ℚ) := by
      rw [div_lt_iff₀ htgt]
      have h3 : (w:ℚ) < (tw:ℚ) / (th:ℚ) * (h:ℚ) := (div_lt_iff₀ hhq).mp hlt2
      linarith [h3, mul_comm ((h:ℚ)) ((tw:ℚ) / (th:ℚ))]
    have htr : ratTrunc ((w:ℚ) / ((tw:ℚ) / (th:ℚ))) =
        ⌊(w:ℚ) / ((tw:ℚ) / (th:ℚ))⌋ := by rw [ratTrunc, if_pos hnn]
    have h0 : 0 ≤ ⌊(w:ℚ) / ((tw:ℚ) / (th:ℚ))⌋ := Int.floor_nonneg.mpr hnn
    have hltq : (⌊(w:ℚ) / ((tw:ℚ) / (th:ℚ))⌋ : ℚ) < (h:ℚ) :=
      lt_of_le_of_lt (Int.floor_le _) hWlt
    have hlt : ⌊(w:ℚ) / ((tw:ℚ) / (th:ℚ))⌋ < h := by exact_mod_cast hltq
    rw [htr]
    have hm : 0 ≤ h - ⌊(w:ℚ) / ((tw:ℚ) / (th:ℚ))⌋ := by linarith
    have hl0 : 0 ≤ (h - ⌊(w:ℚ) / ((tw:ℚ) / (th:ℚ))⌋).fdiv 2 :=
      Int.fdiv_nonneg hm (by norm_num)
    have hl1 : (h - ⌊(w:ℚ) / ((tw:ℚ) / (th:ℚ))⌋).fdiv 2 ≤
        h - ⌊(w:ℚ) / ((tw:ℚ) / (th:ℚ))⌋ := by
      rw [Int.fdiv_eq_ediv _ (by norm_num)]
      exact Int.ediv_le_self 2 hm
    refine ⟨le_refl 0, le_refl w, hl0, ?_⟩
    show (h - ⌊(w:ℚ) / ((tw:ℚ) / (th:ℚ))⌋).fdiv 2 + ⌊(w:ℚ) / ((tw:ℚ) / (th:ℚ))⌋ ≤ h
    linarith

/-- C9: with no explicit size, `images_to_gif` picks the smallest input
width and smallest input height as the common frame size (both attained by
some input, so nothing is upscaled), center-crops each image to the target
aspect ratio (balanced margins, box inside the source), resizes every frame
to exactly the target — and the 800×600 + 640×480 example yields 640×480
frames with no crop needed (equal aspect ratios). -/
theorem C9_images_sizing :
    (∀ (sizes : List (ℤ × ℤ)) (tw th : ℤ),
      imagesToGifTarget sizes none = some (tw, th) →
        (∀ q ∈ sizes, tw ≤ q.1 ∧ th ≤ q.2)
        ∧ tw ∈ sizes.map Prod.fst ∧ th ∈ sizes.map Prod.snd
        ∧ imagesToGifFrameSizes sizes none = some (sizes.map (fun _ => (tw, th))))
    ∧ (∀ w h tw th : ℤ,
        (centerCropBox w h tw th).left =
          (w - ((centerCropBox w h tw th).right - (centerCropBox w h tw th).left)).fdiv 2
        ∧ (centerCropBox w h tw th).top =
          (h - ((centerCropBox w h tw th).bottom - (centerCropBox w h tw th).top)).fdiv 2)
    ∧ (∀ w h tw th : ℤ, 0 < w → 0 < h → 0 < tw → 0 < th →
        0 ≤ (centerCropBox w h tw th).left ∧ (centerCropBox w h tw th).right ≤ w
        ∧ 0 ≤ (centerCropBox w h tw th).top ∧ (centerCropBox w h tw th).bottom ≤ h)
    ∧ imagesToGifTarget [(800, 600), (640, 480)] none = some (640, 480)
    ∧ centerCropBox 800 600 640 480 = { left := 0, top := 0, right := 800, bottom := 600 }
    ∧ centerCropBox 640 480 640 480 = { left := 0, top := 0, right := 640, bottom := 480 }
    ∧ imagesToGifFrameSizes [(800, 600), (640, 480)] none =
        some [(640, 480), (640, 480)] := by
  refine ⟨?_, centerCropBox_centered, centerCropBox_bounds, ?_, ?_, ?_, ?_⟩
  · intro sizes tw th htgt
    cases sizes with
    | nil => simp [imagesToGifTarget] at htgt
    | cons s rest =>
      have hmk : (List.foldl min s.1 (rest.map Prod.fst),
          List.foldl min s.2 (rest.map Prod.snd)) = (tw, th) := by
        have := htgt
        simp only [imagesToGifTarget, Option.some.injEq] at this
        exact this
      have htw : List.foldl min s.1 (rest.map Prod.fst) = tw := congrArg Prod.fst hmk
      have hth : List.foldl min s.2 (rest.map Prod.snd) = th := congrArg Prod.snd hmk
      refine ⟨?_, ?_, ?_, ?_⟩
      · intro q hq
        rcases List.mem_cons.mp hq with rfl | hq2
        · exact ⟨htw ▸ foldl_min_le_head q.1 (rest.map Prod.fst),
            hth ▸ foldl_min_le_head q.2 (rest.map Prod.snd)⟩
        · exact ⟨htw ▸ foldl_min_le_mem s.1 (rest.map Prod.fst) q.1
              (List.mem_map_of_mem Prod.fst hq2),
            hth ▸ foldl_min_le_mem s.2 (rest.map Prod.snd) q.2
              (List.mem_map_of_mem Prod.snd hq2)⟩
      · rw [List.map_cons]
        exact htw ▸ foldl_min_mem s.1 (rest.map Prod.fst)
      · rw [List.map_cons]
        exact hth ▸ foldl_min_mem s.2 (rest.map Prod.snd)
      · simp only [imagesToGifFrameSizes, htgt]
  · norm_num [imagesToGifTarget]
  · norm_num [centerCropBox]
  · norm_num [centerCropBox]
  · norm_num [imagesToGifFrameSizes, imagesToGifTarget]

/-- Witness for C9: the concrete 800×600 + 640×480 pair — the chosen target
640×480 is a lower bound of both inputs. -/
theorem C9_images_sizing_witness :
    ∀ q ∈ [((800:ℤ), (600:ℤ)), ((640:ℤ), (480:ℤ))], 640 ≤ q.1 ∧ 480 ≤ q.2 :=
  (C9_images_sizing.1 [(800, 600), (640, 480)] 640 480
    (by norm_num [imagesToGifTarget])).1

/-- C10: every ffmpeg scale expression of the asynchronous video job — the
intermediate re-encode, the palette generation, and the final GIF encode —
uses width `max(320, requested width)`; a requested width below 320 is
silently raised to 320 and never honored as given. -/
theorem C10_min_width (fps w loops : ℤ) (st sl : ℚ) (iv sv pal out : String)
    (lf : Bool) :
    scaleExpr w = "scale=" ++ toString (max 320 w) ++ ":-2"
    ∧ scaleExpr w ∈ recodeCmd st sl iv w sv
    ∧ ("fps=" ++ toString fps ++ ",scale=" ++ toString (max 320 w)
        ++ ":-2:flags=lanczos,palettegen") ∈ palettegenCmd sv fps w pal
    ∧ ("fps=" ++ toString fps ++ ",scale=" ++ toString (max 320 w)
        ++ ":-2:flags=lanczos[x];[x][1:v]paletteuse")
        ∈ gifEncodeCmd sv pal fps w lf loops out
    ∧ (w < 320 → max 320 w = 320 ∧ max 320 w ≠ w)
    ∧ (320 ≤ w → max 320 w = w) := by
  refine ⟨rfl, ?_, ?_, ?_, ?_, fun h => max_eq_right h⟩
  · simp [recodeCmd]
  · simp [palettegenCmd]
  · simp [gifEncodeCmd]
  · intro h
    have h1 : max 320 w = 320 := max_eq_left (le_of_lt h)
    exact ⟨h1, by rw [h1]; intro h2; rw [h2] at h; exact lt_irrefl w h⟩

/-- Witness for C10: a requested width of 100 is raised to 320 in the scale
expression. -/
theorem C10_min_width_witness :
    scaleExpr 100 = "scale=" ++ toString (max 320 (100:ℤ)) ++ ":-2"
    ∧ max 320 (100:ℤ) = 320 ∧ max 320 (100:ℤ) ≠ 100 := by
  have h := C10_min_width 12 100 0 0 1 "in.mp4" "small.mp4" "palette.png"
    "result.gif" false
  exact ⟨h.1, (h.2.2.2.2.1 (by norm_num)).1, (h.2.2.2.2.1 (by norm_num)).2⟩
